import Mathlib

/-!
Shallow embedding of the evaluation-case derivation and grading engine of
the `generate_csv_evals` repository: group-by aggregation, time-window
comparison and custom metrics from `generate_eval_datasets.py`, and the
tolerant comparator and per-category graders from `example_eval_usage.py`.
Pandas missing values (`NaN`) are modelled as absence from a row's
association lists; Python floats are modelled as rationals.
-/

/-- A row of the data frame: the parsed `Date` value (as a day count) plus
the categorical and numeric cells that are present (a column absent from the
list models a pandas missing value). -/
structure Row where
  date : Int
  cats : List (String × String)
  nums : List (String × ℚ)
deriving DecidableEq

/-- Value of a categorical column in a row, `none` when missing. -/
def getCat (r : Row) (c : String) : Option String :=
  (r.cats.find? (fun p => p.1 == c)).map Prod.snd

/-- Value of a numeric column in a row, `none` when missing. -/
def getNum (r : Row) (c : String) : Option ℚ :=
  (r.nums.find? (fun p => p.1 == c)).map Prod.snd

/-- Present numeric value with default 0; the engines only apply it after a
completeness filter, so the default is never observed there. -/
def getNumD (r : Row) (c : String) : ℚ := (getNum r c).getD 0

/-- The data frame: declared column names plus rows (`self.df`). -/
structure Table where
  columns : List String
  rows : List Row
deriving DecidableEq

/-- Lookup in an association list keyed by strings (Python `dict` access /
`dict.get`). -/
def lookupKey {α : Type} (l : List (String × α)) (k : String) : Option α :=
  (l.find? (fun p => p.1 == k)).map Prod.snd

/-- Distinct present values of a categorical column: the group keys produced
by `df.groupby(col)`; pandas drops rows whose group key is missing. -/
def groupKeys (rows : List Row) (g : String) : List String :=
  (rows.filterMap (fun r => getCat r g)).dedup

/-- Rows of one group-by partition (the rows whose group column holds `k`). -/
def partitionRows (rows : List Row) (g k : String) : List Row :=
  rows.filter (fun r => getCat r g == some k)

/-- Present values of the metric column of some rows; pandas reductions skip
missing values. -/
def metricValues (rows : List Row) (m : String) : List ℚ :=
  rows.filterMap (fun r => getNum r m)

/-- The aggregation function names drawn by `generate_aggregation_evals`. -/
inductive AggFn where
  | sum
  | mean
  | min
  | max
  | count
deriving DecidableEq

/-- Pandas reduction of the present metric values of one group, composed with
the `float(v) if pd.notna(v) else None` conversion used by the generator:
`sum` of an empty list is `0` (pandas default `min_count=0`), `count` counts
the non-missing values, and `mean`, `min`, `max` of an empty list are `NaN`,
hence `none` after the conversion. -/
def aggValues : AggFn → List ℚ → Option ℚ
  | .sum, vs => some vs.sum
  | .count, vs => some (vs.length : ℚ)
  | .mean, vs => if vs.isEmpty then none else some (vs.sum / (vs.length : ℚ))
  | .min, vs =>
      match vs with
      | [] => none
      | v :: rest => some (rest.foldl Min.min v)
  | .max, vs =>
      match vs with
      | [] => none
      | v :: rest => some (rest.foldl Max.max v)

/-- `self.df.groupby(group_col)[metric_col].agg(agg_func)` followed by the
`{str(k): float(v) if pd.notna(v) else None}` conversion of
`generate_aggregation_evals`. -/
def aggregate (t : Table) (g m : String) (fn : AggFn) : List (String × Option ℚ) :=
  (groupKeys t.rows g).map
    (fun k => (k, aggValues fn (metricValues (partitionRows t.rows g k) m)))

/-- Round to the nearest integer, ties to even (Python `round`). -/
def roundHalfEven (x : ℚ) : ℤ :=
  let f := ⌊x⌋
  let frac := x - (f : ℚ)
  if frac < 1 / 2 then f
  else if 1 / 2 < frac then f + 1
  else if f % 2 = 0 then f else f + 1

/-- Python `round(x, 2)`. -/
def round2 (x : ℚ) : ℚ := ((roundHalfEven (x * 100) : ℤ) : ℚ) / 100

/-- Rows strictly before the split point: `self.df[self.df['Date'] < split_point]`. -/
def period1Rows (rows : List Row) (split : Int) : List Row :=
  rows.filter (fun r => decide (r.date < split))

/-- Rows at or after the split point: `self.df[self.df['Date'] >= split_point]`. -/
def period2Rows (rows : List Row) (split : Int) : List Row :=
  rows.filter (fun r => decide (split ≤ r.date))

/-- `df[metric_col].sum()`: sum of the present metric values, `0` when none. -/
def pSum (rows : List Row) (m : String) : ℚ := (metricValues rows m).sum

/-- The `expected_result` shape of an ungrouped time-comparison case. -/
structure TimeComparisonResult where
  period_1_value : Option ℚ
  period_2_value : Option ℚ
  absolute_difference : Option ℚ
  percent_change : Option ℚ
deriving DecidableEq

/-- Ungrouped time comparison of `generate_time_comparison_evals`: per-period
sums (never `NaN`, hence always present), their difference, and
`percent_change` rounded to 2 places, guarded by `period1_value != 0`. -/
def compareWindows (t : Table) (m : String) (split : Int) : TimeComparisonResult :=
  let p1 := pSum (period1Rows t.rows split) m
  let p2 := pSum (period2Rows t.rows split) m
  { period_1_value := some p1
    period_2_value := some p2
    absolute_difference := some (p2 - p1)
    percent_change := if p1 ≠ 0 then some (round2 ((p2 - p1) / p1 * 100)) else none }

/-- `self.df['Date'].min()` over a nonempty frame (0 as junk value for empty). -/
def minDate (rows : List Row) : Int :=
  match rows with
  | [] => 0
  | r :: rs => (rs.map (fun x => x.date)).foldl Min.min r.date

/-- `self.df['Date'].max()` over a nonempty frame (0 as junk value for empty). -/
def maxDate (rows : List Row) : Int :=
  match rows with
  | [] => 0
  | r :: rs => (rs.map (fun x => x.date)).foldl Max.max r.date

/-- `split_point = self.df['Date'].min() + timedelta(days=date_range // 2)`. -/
def splitPoint (t : Table) : Int :=
  minDate t.rows + (maxDate t.rows - minDate t.rows) / 2

/-- The per-group entry of a grouped time-comparison `expected_result`. -/
structure GroupPeriodEntry where
  period_1 : Option ℚ
  period_2 : Option ℚ
  difference : Option ℚ
  percent_change : Option ℚ
deriving DecidableEq

/-- `period_df.groupby(group_col)[metric_col].sum().to_dict()`. -/
def sumByGroup (rows : List Row) (g m : String) : List (String × ℚ) :=
  (groupKeys rows g).map (fun k => (k, pSum (partitionRows rows g k) m))

/-- The loop body of the grouped comparison: `val1 = period1_grouped.get(group, 0)`,
`val2 = period2_grouped.get(group, 0)`, their difference, and the percent
change guarded by `val1 != 0`.  The values are never `NaN`, so the `pd.notna`
conversions always yield present values. -/
def groupEntry (p1g p2g : List (String × ℚ)) (k : String) : GroupPeriodEntry :=
  let val1 := (lookupKey p1g k).getD 0
  let val2 := (lookupKey p2g k).getD 0
  { period_1 := some val1
    period_2 := some val2
    difference := some (val2 - val1)
    percent_change :=
      if val1 ≠ 0 then some (round2 ((val2 - val1) / val1 * 100)) else none }

/-- Grouped time comparison of `generate_time_comparison_evals`: the key
universe `all_groups` is the set union of the groups of either period, and
each key maps to its `groupEntry`. -/
def compareWindowsGrouped (t : Table) (m g : String) (split : Int) :
    List (String × GroupPeriodEntry) :=
  let p1g := sumByGroup (period1Rows t.rows split) g m
  let p2g := sumByGroup (period2Rows t.rows split) g m
  let allGroups := (p1g.map Prod.fst ++ p2g.map Prod.fst).dedup
  allGroups.map (fun k => (k, groupEntry p1g p2g k))

/-- The five custom metrics of `generate_custom_metrics_evals`. -/
inductive MetricName where
  | roi
  | conversionRate
  | costPerConversion
  | revenuePerSession
  | profitMargin
deriving DecidableEq

/-- The `columns` entry of each custom-metric record in the source list. -/
def requiredColumns : MetricName → List String
  | .roi => ["Total Revenue", "Total Cost"]
  | .conversionRate => ["Conversions", "Clicks"]
  | .costPerConversion => ["Total Cost", "Conversions"]
  | .revenuePerSession => ["Total Revenue", "Sessions"]
  | .profitMargin => ["Total Revenue", "Total Cost"]

/-- The zero-denominator guard applied after `dropna`: for example
`df_clean = df_clean[df_clean["Total Cost"] != 0]` for ROI. -/
def metricGuard : MetricName → Row → Bool
  | .roi, r => decide (getNumD r "Total Cost" ≠ 0)
  | .conversionRate, r => decide (getNumD r "Clicks" ≠ 0)
  | .costPerConversion, r => decide (getNumD r "Conversions" ≠ 0)
  | .revenuePerSession, r => decide (getNumD r "Sessions" ≠ 0)
  | .profitMargin, r => decide (getNumD r "Total Revenue" ≠ 0)

/-- The per-row derived `custom_metric` column (evaluated only on rows that
passed the completeness filter and the guard, where every `getNumD` reads a
present value). -/
def rowMetric : MetricName → Row → ℚ
  | .roi, r =>
      (getNumD r "Total Revenue" - getNumD r "Total Cost") / getNumD r "Total Cost" * 100
  | .conversionRate, r => getNumD r "Conversions" / getNumD r "Clicks" * 100
  | .costPerConversion, r => getNumD r "Total Cost" / getNumD r "Conversions"
  | .revenuePerSession, r => getNumD r "Total Revenue" / getNumD r "Sessions"
  | .profitMargin, r =>
      (getNumD r "Total Revenue" - getNumD r "Total Cost") / getNumD r "Total Revenue" * 100

/-- `df_clean = self.df.dropna(subset=required_cols)` followed by the
zero-denominator guard filter. -/
def cleanRows (mn : MetricName) (rows : List Row) : List Row :=
  (rows.filter (fun r => (requiredColumns mn).all (fun c => (getNum r c).isSome))).filter
    (metricGuard mn)

/-- The derived `custom_metric` column over the cleaned rows. -/
def customMetricValues (mn : MetricName) (rows : List Row) : List ℚ :=
  (cleanRows mn rows).map (rowMetric mn)

/-- The aggregation functions drawn for ungrouped custom-metric cases. -/
inductive CustomAggFn where
  | mean
  | sum
  | median
deriving DecidableEq

/-- `Series.mean` of a nonempty series. -/
def meanQ (vs : List ℚ) : ℚ := vs.sum / (vs.length : ℚ)

/-- `Series.median` of a nonempty series: middle element of the sorted values,
or the average of the two middle elements. -/
def medianQ (vs : List ℚ) : ℚ :=
  let sorted := List.insertionSort (fun a b => a ≤ b) vs
  if sorted.length % 2 = 1 then sorted.getD (sorted.length / 2) 0
  else (sorted.getD (sorted.length / 2 - 1) 0 + sorted.getD (sorted.length / 2) 0) / 2

/-- Dispatch on `agg_func` for ungrouped custom-metric cases. -/
def customAgg : CustomAggFn → List ℚ → ℚ
  | .mean, vs => meanQ vs
  | .sum, vs => vs.sum
  | .median, vs => medianQ vs

/-- One ungrouped custom-metric case of `generate_custom_metrics_evals`:
`none` when the case is skipped (a required column is absent from the frame,
or the cleaned population is empty), otherwise the rounded aggregate.  The
aggregate of a nonempty cleaned population is never `NaN`, so the final
`pd.notna` conversion always yields a present value. -/
def generateCustomMetricCase (t : Table) (mn : MetricName) (fn : CustomAggFn) : Option ℚ :=
  if (requiredColumns mn).all (fun c => t.columns.contains c) then
    let vs := customMetricValues mn t.rows
    if vs.isEmpty then none
    else some (round2 (customAgg fn vs))
  else none

/-- One grouped custom-metric case: `df_clean.groupby(group_col)['custom_metric'].mean()`
with each group mean rounded to 2 places; the mean of a nonempty group of
non-`NaN` values is never `NaN`, so the `pd.notna` conversion always yields a
present value. -/
def groupedCustomMetricCase (t : Table) (mn : MetricName) (g : String) :
    Option (List (String × Option ℚ)) :=
  if (requiredColumns mn).all (fun c => t.columns.contains c) then
    if (cleanRows mn t.rows).isEmpty then none
    else some ((groupKeys (cleanRows mn t.rows) g).map (fun k =>
      (k, some (round2 (meanQ ((partitionRows (cleanRows mn t.rows) g k).map (rowMetric mn)))))))
  else none

/-- The nested values exchanged between a case's `expected_result` and a
recomputed actual result: JSON scalars and string-keyed mappings.  Python
booleans are a subtype of `int`, so they are kept as a separate constructor
and folded into the numeric test of the comparator. -/
inductive JVal where
  | null : JVal
  | num : ℚ → JVal
  | boolean : Bool → JVal
  | str : String → JVal
  | dict : List (String × JVal) → JVal

/-- The `isinstance(v, (int, float))` test of `compare_results`, with the
numeric content: Python booleans pass it with values 1 and 0. -/
def toNum : JVal → Option ℚ
  | .num q => some q
  | .boolean b => some (if b then 1 else 0)
  | _ => none

/-- The final `actual == expected` branch of `compare_results`, restricted to
the shapes that can reach it (at most one side a mapping, not both numeric):
equal `None`s and equal strings pass, every other reachable pair is unequal
in Python. -/
def scalarEq : JVal → JVal → Bool
  | .null, .null => true
  | .str s1, .str s2 => s1 == s2
  | _, _ => false

/-- `set(expected.keys()) != set(actual.keys())` in `compare_results`,
as two-sided containment of the key lists. -/
def sameKeySet (da de : List (String × JVal)) : Bool :=
  da.all (fun p => de.any (fun q => q.1 == p.1)) &&
  de.all (fun p => da.any (fun q => q.1 == p.1))

mutual

/-- `compare_results(actual, expected, tolerance)` of `example_eval_usage.py`:
mappings compare by key-set equality plus recursive comparison, numeric
values (including booleans) by absolute difference against the tolerance,
everything else by Python equality.  The `expected is None or actual is None`
test inside the numeric branch is dead code (`None` is not an `int`/`float`)
and is omitted. -/
def compare_results (actual expected : JVal) (tolerance : ℚ) : Bool :=
  match actual, expected with
  | .dict da, .dict de => sameKeySet da de && compare_entries da de tolerance
  | a, e =>
      match toNum a, toNum e with
      | some x, some y => decide (|x - y| ≤ tolerance)
      | _, _ => scalarEq a e
termination_by sizeOf expected

/-- `all(compare_results(actual[k], expected[k], tolerance) for k in expected.keys())`;
the `none` lookup branch is unreachable when the key sets agree. -/
def compare_entries (da de : List (String × JVal)) (tolerance : ℚ) : Bool :=
  match de with
  | [] => true
  | (k, ve) :: rest =>
      (match lookupKey da k with
       | some va => compare_results va ve tolerance
       | none => false) && compare_entries da rest tolerance
termination_by sizeOf de

end

/-- Default `tolerance=0.01` of `compare_results`. -/
def defaultTolerance : ℚ := 1 / 100

/-- `test_aggregation_case` grades with the default tolerance. -/
def aggregationCaseTolerance : ℚ := defaultTolerance

/-- `test_time_comparison_case` grades with `tolerance=0.1`. -/
def timeComparisonCaseTolerance : ℚ := 1 / 10

/-- `test_custom_metrics_case` grades with `tolerance=0.1`. -/
def customMetricsCaseTolerance : ℚ := 1 / 10

/-- The final comparison of `test_aggregation_case`. -/
def gradeAggregationCase (actual expected : JVal) : Bool :=
  compare_results actual expected aggregationCaseTolerance

/-- The final comparison of `test_time_comparison_case`. -/
def gradeTimeComparisonCase (actual expected : JVal) : Bool :=
  compare_results actual expected timeComparisonCaseTolerance

/-- The final comparison of `test_custom_metrics_case`. -/
def gradeCustomMetricsCase (actual expected : JVal) : Bool :=
  compare_results actual expected customMetricsCaseTolerance

/-- Well-formed nested values: every mapping level has pairwise distinct keys,
as Python dictionaries do by construction. -/
inductive WF : JVal → Prop where
  | null : WF JVal.null
  | num (q : ℚ) : WF (JVal.num q)
  | boolean (b : Bool) : WF (JVal.boolean b)
  | str (s : String) : WF (JVal.str s)
  | dict (l : List (String × JVal)) (hkeys : (l.map Prod.fst).Nodup)
      (hvals : ∀ p ∈ l, WF p.2) : WF (JVal.dict l)

/-- The four-row example table of the specification: columns
`Date, Region, Revenue, Cost`, dates as day counts from 2024-01-01
(0, 9, 35, 50). -/
def specExampleTable : Table :=
  { columns := ["Date", "Region", "Revenue", "Cost"]
    rows := [
      { date := 0, cats := [("Region", "East")], nums := [("Revenue", 100), ("Cost", 50)] },
      { date := 9, cats := [("Region", "West")], nums := [("Revenue", 200), ("Cost", 100)] },
      { date := 35, cats := [("Region", "East")], nums := [("Revenue", 150), ("Cost", 60)] },
      { date := 50, cats := [("Region", "West")], nums := [("Revenue", 50), ("Cost", 40)] }
    ] }

/-- The same four rows with the revenue and cost columns bearing the names the
source actually requires, `Total Revenue` and `Total Cost`. -/
def renamedExampleTable : Table :=
  { columns := ["Date", "Region", "Total Revenue", "Total Cost"]
    rows := [
      { date := 0, cats := [("Region", "East")],
        nums := [("Total Revenue", 100), ("Total Cost", 50)] },
      { date := 9, cats := [("Region", "West")],
        nums := [("Total Revenue", 200), ("Total Cost", 100)] },
      { date := 35, cats := [("Region", "East")],
        nums := [("Total Revenue", 150), ("Total Cost", 60)] },
      { date := 50, cats := [("Region", "West")],
        nums := [("Total Revenue", 50), ("Total Cost", 40)] }
    ] }

/-- The first row of `renamedExampleTable`. -/
def renamedExampleRow : Row :=
  { date := 0, cats := [("Region", "East")],
    nums := [("Total Revenue", 100), ("Total Cost", 50)] }

/-- Two-row table whose single group `A` has one present and one missing
metric value. -/
def countExampleTable : Table :=
  { columns := ["G", "M"]
    rows := [
      { date := 0, cats := [("G", "A")], nums := [("M", 5)] },
      { date := 0, cats := [("G", "A")], nums := [] }
    ] }

/-- One-row table whose single group `A` has a missing metric value, so the
partition is empty after missing-value exclusion. -/
def missingMetricTable : Table :=
  { columns := ["G", "M"]
    rows := [ { date := 0, cats := [("G", "A")], nums := [] } ] }

/-- Two-row table where group `B` occurs only at or after day 5, so a split at
day 5 leaves `B` absent from period 1. -/
def groupShiftTable : Table :=
  { columns := ["Date", "G", "M"]
    rows := [
      { date := 0, cats := [("G", "A")], nums := [("M", 10)] },
      { date := 10, cats := [("G", "B")], nums := [("M", 5)] }
    ] }

/-- The grouped time-comparison entry of group `B` of `groupShiftTable` at
split 5: absent from period 1, hence a zero raw value and a null percent
change. -/
def groupShiftEntryB : GroupPeriodEntry :=
  { period_1 := some 0
    period_2 := some 5
    difference := some 5
    percent_change := none }

/-- The grouped time-comparison entry of group `A` of `groupShiftTable` at
split 5: absent from period 2, hence a zero raw period-2 value. -/
def groupShiftEntryA : GroupPeriodEntry :=
  { period_1 := some 10
    period_2 := some 0
    difference := some (-10)
    percent_change := some (-100) }

/-- A table with one row whose group value is missing. -/
def missingGroupTable : Table :=
  { columns := ["G", "M"]
    rows := [
      { date := 0, cats := [("G", "A")], nums := [("M", 1)] },
      { date := 0, cats := [], nums := [("M", 2)] }
    ] }

/-- The row of `missingGroupTable` whose group value is missing. -/
def missingGroupRow : Row := { date := 0, cats := [], nums := [("M", 2)] }

/-- A two-level nested mapping used to instantiate comparator reflexivity. -/
def nestedExampleVal : JVal :=
  JVal.dict [("a", JVal.num 1),
             ("b", JVal.dict [("c", JVal.str "x"), ("d", JVal.null)]),
             ("e", JVal.boolean true)]

theorem lookupKey_map {α : Type} (f : String → α) (l : List String) (k : String) :
    lookupKey (l.map (fun x => (x, f x))) k = if k ∈ l then some (f k) else none := by
  induction l with
  | nil => simp [lookupKey]
  | cons a as ih =>
    by_cases h : a = k
    · subst h
      simp [lookupKey, List.find?]
    · have hba : ((a, f a).1 == k) = false := by simpa using h
      simp only [List.map_cons, lookupKey, List.find?_cons, hba] at ih ⊢
      rw [ih]
      simp [List.mem_cons, h, Ne.symm h]

theorem mem_groupKeys {rows : List Row} {g k : String} :
    k ∈ groupKeys rows g ↔ ∃ r ∈ rows, getCat r g = some k := by
  simp [groupKeys, List.mem_dedup, List.mem_filterMap]

theorem aggregate_keys (t : Table) (g m : String) (fn : AggFn) :
    (aggregate t g m fn).map Prod.fst = groupKeys t.rows g := by
  simp only [aggregate, List.map_map]
  exact List.map_id (groupKeys t.rows g)

theorem lookup_aggregate (t : Table) (g m : String) (fn : AggFn) (k : String)
    (hk : k ∈ groupKeys t.rows g) :
    lookupKey (aggregate t g m fn) k =
      some (aggValues fn (metricValues (partitionRows t.rows g k) m)) := by
  rw [aggregate, lookupKey_map, if_pos hk]

theorem length_filterMap_eq_countP {α β : Type} (f : α → Option β) (l : List α) :
    (l.filterMap f).length = l.countP (fun a => (f a).isSome) := by
  induction l with
  | nil => rfl
  | cons a as ih =>
    cases h : f a <;> simp [List.filterMap_cons, h, List.countP_cons, ih]

/-- C1: the claim says `count` counts every row of the partition, including
rows with a missing metric value; on a two-row partition with one missing
metric value the source's pandas `count` reports 1, not 2. -/
theorem c1_count_counterexample :
    aggregate countExampleTable "G" "M" AggFn.count = [("A", some 1)] ∧
    (partitionRows countExampleTable.rows "G" "A").length = 2 := by
  decide

/-- C1 (amended): for `fn = count` the aggregation reports, for each group,
the number of rows of the partition whose metric value is non-missing
(pandas `count` skips missing values). -/
theorem c1_count_counts_nonmissing (t : Table) (g m k : String)
    (hk : k ∈ (aggregate t g m AggFn.count).map Prod.fst) :
    lookupKey (aggregate t g m AggFn.count) k =
      some (some (((partitionRows t.rows g k).countP
        (fun r => (getNum r m).isSome) : ℕ) : ℚ)) := by
  rw [aggregate_keys] at hk
  rw [lookup_aggregate t g m AggFn.count k hk]
  simp [aggValues, metricValues, length_filterMap_eq_countP]

/-- Witness for C1 at the two-row example table. -/
theorem c1_count_counts_nonmissing_witness :
    "A" ∈ (aggregate countExampleTable "G" "M" AggFn.count).map Prod.fst ∧
    lookupKey (aggregate countExampleTable "G" "M" AggFn.count) "A" =
      some (some (((partitionRows countExampleTable.rows "G" "A").countP
        (fun r => (getNum r "M").isSome) : ℕ) : ℚ)) :=
  ⟨by decide, c1_count_counts_nonmissing countExampleTable "G" "M" "A" (by decide)⟩

/-- C2: the claim says an empty-after-exclusion partition always aggregates to
null; for `fn = sum` the source reports 0 (pandas sum of an all-missing
group), not null. -/
theorem c2_empty_sum_counterexample :
    metricValues (partitionRows missingMetricTable.rows "G" "A") "M" = [] ∧
    aggregate missingMetricTable "G" "M" AggFn.sum = [("A", some 0)] := by
  decide

/-- C2 (amended): over a partition that is empty after missing-value
exclusion, `mean`, `min` and `max` aggregate to null, but `sum` aggregates to
0; a custom-metric case whose cleaned population is empty is skipped rather
than emitted with a null aggregate. -/
theorem c2_empty_partition_aggregates (t : Table) (g m k : String)
    (hk : k ∈ groupKeys t.rows g)
    (he : metricValues (partitionRows t.rows g k) m = []) :
    lookupKey (aggregate t g m AggFn.mean) k = some none ∧
    lookupKey (aggregate t g m AggFn.min) k = some none ∧
    lookupKey (aggregate t g m AggFn.max) k = some none ∧
    lookupKey (aggregate t g m AggFn.sum) k = some (some 0) ∧
    ∀ (mn : MetricName) (fn : CustomAggFn),
      customMetricValues mn t.rows = [] → generateCustomMetricCase t mn fn = none := by
  refine ⟨?_, ?_, ?_, ?_, ?_⟩
  · rw [lookup_aggregate t g m AggFn.mean k hk, he]
    simp [aggValues]
  · rw [lookup_aggregate t g m AggFn.min k hk, he]
    simp [aggValues]
  · rw [lookup_aggregate t g m AggFn.max k hk, he]
    simp [aggValues]
  · rw [lookup_aggregate t g m AggFn.sum k hk, he]
    simp [aggValues]
  · intro mn fn hv
    unfold generateCustomMetricCase
    rw [hv]
    simp

/-- Witness for C2 at the one-row table with a missing metric value. -/
theorem c2_empty_partition_aggregates_witness :
    "A" ∈ groupKeys missingMetricTable.rows "G" ∧
    metricValues (partitionRows missingMetricTable.rows "G" "A") "M" = [] ∧
    customMetricValues MetricName.roi missingMetricTable.rows = [] ∧
    lookupKey (aggregate missingMetricTable "G" "M" AggFn.sum) "A" = some (some 0) ∧
    generateCustomMetricCase missingMetricTable MetricName.roi CustomAggFn.mean = none :=
  ⟨by decide, by decide, by decide,
   (c2_empty_partition_aggregates missingMetricTable "G" "M" "A"
      (by decide) (by decide)).2.2.2.1,
   (c2_empty_partition_aggregates missingMetricTable "G" "M" "A"
      (by decide) (by decide)).2.2.2.2 MetricName.roi CustomAggFn.mean (by decide)⟩

theorem sumByGroup_keys (rows : List Row) (g m : String) :
    (sumByGroup rows g m).map Prod.fst = groupKeys rows g := by
  simp only [sumByGroup, List.map_map]
  exact List.map_id (groupKeys rows g)

theorem lookup_sumByGroup (rows : List Row) (g m : String) (k : String) :
    lookupKey (sumByGroup rows g m) k =
      if k ∈ groupKeys rows g then some (pSum (partitionRows rows g k) m) else none := by
  rw [sumByGroup, lookupKey_map]

theorem compareWindowsGrouped_keys (t : Table) (m g : String) (split : Int) :
    (compareWindowsGrouped t m g split).map Prod.fst =
      (groupKeys (period1Rows t.rows split) g ++ groupKeys (period2Rows t.rows split) g).dedup := by
  simp only [compareWindowsGrouped, List.map_map, sumByGroup_keys]
  exact List.map_id _

theorem lookup_compareWindowsGrouped (t : Table) (m g : String) (split : Int) (k : String) :
    lookupKey (compareWindowsGrouped t m g split) k =
      if k ∈ (groupKeys (period1Rows t.rows split) g ++
              groupKeys (period2Rows t.rows split) g).dedup then
        some (groupEntry (sumByGroup (period1Rows t.rows split) g m)
          (sumByGroup (period2Rows t.rows split) g m) k)
      else none := by
  rw [compareWindowsGrouped, lookupKey_map]
  rw [sumByGroup_keys, sumByGroup_keys]

/-- C6: an ungrouped time comparison reports
`percent_change = round((p2 - p1) / p1 * 100, 2)` exactly when the period-1
sum is nonzero (it is always present), and null otherwise; on the four-row
example table with the canonical split the result is
`period_1 = 300, period_2 = 200, absolute_difference = -100,
percent_change = -33.33`. -/
theorem c6_ungrouped_percent_change (t : Table) (m : String) (split : Int) :
    (pSum (period1Rows t.rows split) m ≠ 0 →
      (compareWindows t m split).percent_change =
        some (round2 ((pSum (period2Rows t.rows split) m -
          pSum (period1Rows t.rows split) m) / pSum (period1Rows t.rows split) m * 100))) ∧
    (pSum (period1Rows t.rows split) m = 0 →
      (compareWindows t m split).percent_change = none) ∧
    compareWindows specExampleTable "Revenue" (splitPoint specExampleTable) =
      { period_1_value := some 300
        period_2_value := some 200
        absolute_difference := some (-100)
        percent_change := some (-33.33) } := by
  refine ⟨fun h => ?_, fun h => ?_, ?_⟩
  · simp [compareWindows, h]
  · simp [compareWindows, h]
  · norm_num [compareWindows, pSum, period1Rows, period2Rows, splitPoint, minDate, maxDate,
      specExampleTable, metricValues, getNum, List.filter, List.filterMap, List.find?,
      round2, roundHalfEven]

/-- Witness for C6: at the example table the period-1 sum is 300 ≠ 0 and the
percent change is the rounded relative change. -/
theorem c6_ungrouped_percent_change_witness :
    pSum (period1Rows specExampleTable.rows (splitPoint specExampleTable)) "Revenue" ≠ 0 ∧
    (compareWindows specExampleTable "Revenue" (splitPoint specExampleTable)).percent_change =
      some (round2 ((pSum (period2Rows specExampleTable.rows (splitPoint specExampleTable))
          "Revenue" -
        pSum (period1Rows specExampleTable.rows (splitPoint specExampleTable)) "Revenue") /
        pSum (period1Rows specExampleTable.rows (splitPoint specExampleTable)) "Revenue" *
        100)) := by
  have h : pSum (period1Rows specExampleTable.rows (splitPoint specExampleTable)) "Revenue" ≠ 0 := by
    norm_num [pSum, period1Rows, splitPoint, minDate, maxDate, specExampleTable,
      metricValues, getNum, List.filter, List.filterMap, List.find?]
  exact ⟨h,
    (c6_ungrouped_percent_change specExampleTable "Revenue" (splitPoint specExampleTable)).1 h⟩

/-- C5: the key set of a grouped time comparison is exactly the union of the
group keys observed in either period, each key exactly once; a group with no
row in one period reports that period's raw value as `some 0` (not null),
and whenever the period-1 value is zero the percent change is null. -/
theorem c5_grouped_union (t : Table) (m g : String) (split : Int) :
    ((compareWindowsGrouped t m g split).map Prod.fst).Nodup ∧
    (∀ k, k ∈ (compareWindowsGrouped t m g split).map Prod.fst ↔
      ((∃ r ∈ period1Rows t.rows split, getCat r g = some k) ∨
       (∃ r ∈ period2Rows t.rows split, getCat r g = some k))) ∧
    (∀ k e, lookupKey (compareWindowsGrouped t m g split) k = some e →
      ((¬ ∃ r ∈ period1Rows t.rows split, getCat r g = some k) → e.period_1 = some 0) ∧
      ((¬ ∃ r ∈ period2Rows t.rows split, getCat r g = some k) → e.period_2 = some 0) ∧
      (e.period_1 = some 0 → e.percent_change = none)) := by
  refine ⟨?_, ?_, ?_⟩
  · rw [compareWindowsGrouped_keys]
    exact List.nodup_dedup _
  · intro k
    rw [compareWindowsGrouped_keys]
    simp [List.mem_dedup, mem_groupKeys]
  · intro k e h
    rw [lookup_compareWindowsGrouped] at h
    by_cases hk : k ∈ (groupKeys (period1Rows t.rows split) g ++
        groupKeys (period2Rows t.rows split) g).dedup
    · rw [if_pos hk] at h
      obtain rfl : groupEntry (sumByGroup (period1Rows t.rows split) g m)
          (sumByGroup (period2Rows t.rows split) g m) k = e := Option.some_inj.mp h
      refine ⟨?_, ?_, ?_⟩
      · intro hnp
        have hk1 : k ∉ groupKeys (period1Rows t.rows split) g := by
          rw [mem_groupKeys]
          exact hnp
        simp [groupEntry, lookup_sumByGroup, hk1]
      · intro hnp
        have hk2 : k ∉ groupKeys (period2Rows t.rows split) g := by
          rw [mem_groupKeys]
          exact hnp
        simp [groupEntry, lookup_sumByGroup, hk2]
      · intro hp1
        have hval : (lookupKey (sumByGroup (period1Rows t.rows split) g m) k).getD 0 = 0 := by
          simpa [groupEntry] using hp1
        simp [groupEntry, hval]
    · rw [if_neg hk] at h
      exact absurd h (by simp)

/-- Witness for C5: in `groupShiftTable` split at day 5, group `B` appears
only in period 2 and reports raw period-1 value 0 with a null percent
change, while group `A` appears only in period 1 and reports raw period-2
value 0. -/
theorem c5_grouped_union_witness :
    lookupKey (compareWindowsGrouped groupShiftTable "M" "G" 5) "B" = some groupShiftEntryB ∧
    groupShiftEntryB.period_1 = some 0 ∧
    groupShiftEntryB.percent_change = none ∧
    lookupKey (compareWindowsGrouped groupShiftTable "M" "G" 5) "A" = some groupShiftEntryA ∧
    groupShiftEntryA.period_2 = some 0 := by
  have hab : (("A" : String) == "B") = false := by decide
  have hba : (("B" : String) == "A") = false := by decide
  have hbb : (("B" : String) == "B") = true := by decide
  have haa : (("A" : String) == "A") = true := by decide
  have hl : lookupKey (compareWindowsGrouped groupShiftTable "M" "G" 5) "B" =
      some groupShiftEntryB := by
    norm_num [compareWindowsGrouped, sumByGroup, groupEntry, lookupKey, groupKeys,
      partitionRows, pSum, metricValues, period1Rows, period2Rows, groupShiftTable,
      getCat, getNum, List.filter, List.filterMap, List.find?, List.dedup,
      groupShiftEntryB, hab, hba, hbb, haa]
  have hlA : lookupKey (compareWindowsGrouped groupShiftTable "M" "G" 5) "A" =
      some groupShiftEntryA := by
    norm_num [compareWindowsGrouped, sumByGroup, groupEntry, lookupKey, groupKeys,
      partitionRows, pSum, metricValues, period1Rows, period2Rows, groupShiftTable,
      getCat, getNum, List.filter, List.filterMap, List.find?, List.dedup,
      groupShiftEntryA, round2, roundHalfEven, hab, hba, hbb, haa]
  have hno : ¬ ∃ r ∈ period1Rows groupShiftTable.rows 5, getCat r "G" = some "B" := by
    decide
  have hnoA : ¬ ∃ r ∈ period2Rows groupShiftTable.rows 5, getCat r "G" = some "A" := by
    decide
  exact ⟨hl,
    ((c5_grouped_union groupShiftTable "M" "G" 5).2.2 "B" groupShiftEntryB hl).1 hno,
    ((c5_grouped_union groupShiftTable "M" "G" 5).2.2 "B" groupShiftEntryB hl).2.2
      (((c5_grouped_union groupShiftTable "M" "G" 5).2.2 "B" groupShiftEntryB hl).1 hno),
    hlA,
    ((c5_grouped_union groupShiftTable "M" "G" 5).2.2 "A" groupShiftEntryA hlA).2.1 hnoA⟩

/-- C3: the claim names the ROI input columns `Revenue` and `Cost`; the source
requires `Total Revenue` and `Total Cost`, so on the example table whose
columns are named `Revenue` and `Cost` the ROI case is skipped entirely
instead of producing 93.75. -/
theorem c3_roi_counterexample :
    requiredColumns MetricName.roi ≠ ["Revenue", "Cost"] ∧
    generateCustomMetricCase specExampleTable MetricName.roi CustomAggFn.mean = none := by
  constructor
  · decide
  · have h : ((requiredColumns MetricName.roi).all
        (fun c => specExampleTable.columns.contains c)) = false := by decide
    simp only [generateCustomMetricCase, h]
    simp

/-- C3 (amended): ROI requires input columns `Total Revenue` and `Total Cost`,
is computed as `(Total Revenue - Total Cost) / Total Cost * 100` on each
cleaned row (required values present and `Total Cost` nonzero), and on the
four-row example table carrying those column names the mean ROI aggregate is
93.75. -/
theorem c3_roi_metric (rows : List Row) (r : Row)
    (hr : r ∈ cleanRows MetricName.roi rows) :
    requiredColumns MetricName.roi = ["Total Revenue", "Total Cost"] ∧
    rowMetric MetricName.roi r =
      (getNumD r "Total Revenue" - getNumD r "Total Cost") / getNumD r "Total Cost" * 100 ∧
    (getNum r "Total Revenue").isSome ∧
    (getNum r "Total Cost").isSome ∧
    getNumD r "Total Cost" ≠ 0 ∧
    generateCustomMetricCase renamedExampleTable MetricName.roi CustomAggFn.mean =
      some (93.75 : ℚ) := by
  rw [cleanRows, List.mem_filter, List.mem_filter] at hr
  obtain ⟨⟨hmem, hcomplete⟩, hguard⟩ := hr
  have hc : (getNum r "Total Revenue").isSome ∧ (getNum r "Total Cost").isSome := by
    simpa [requiredColumns] using hcomplete
  refine ⟨rfl, rfl, hc.1, hc.2, ?_, ?_⟩
  · exact of_decide_eq_true hguard
  · have hcond : ((requiredColumns MetricName.roi).all
        (fun c => renamedExampleTable.columns.contains c)) = true := by decide
    have hclean : cleanRows MetricName.roi renamedExampleTable.rows =
        renamedExampleTable.rows := by decide
    have hb1 : (("Total Revenue" : String) == "Total Revenue") = true := by decide
    have hb2 : (("Total Revenue" : String) == "Total Cost") = false := by decide
    have hb3 : (("Total Cost" : String) == "Total Cost") = true := by decide
    have hvals : customMetricValues MetricName.roi renamedExampleTable.rows =
        [100, 100, 150, 25] := by
      rw [customMetricValues, hclean]
      norm_num [rowMetric, getNumD, getNum, renamedExampleTable, List.find?, hb1, hb2, hb3]
    simp only [generateCustomMetricCase, hcond, hvals]
    norm_num [customAgg, meanQ, round2, roundHalfEven]

/-- Witness for C3 at the first row of the renamed example table. -/
theorem c3_roi_metric_witness :
    renamedExampleRow ∈ cleanRows MetricName.roi renamedExampleTable.rows ∧
    getNumD renamedExampleRow "Total Cost" ≠ 0 ∧
    generateCustomMetricCase renamedExampleTable MetricName.roi CustomAggFn.mean =
      some (93.75 : ℚ) := by
  have hr : renamedExampleRow ∈ cleanRows MetricName.roi renamedExampleTable.rows := by
    decide
  exact ⟨hr, (c3_roi_metric renamedExampleTable.rows renamedExampleRow hr).2.2.2.2.1,
    (c3_roi_metric renamedExampleTable.rows renamedExampleRow hr).2.2.2.2.2⟩

theorem lookupKey_self_of_nodup {α : Type} {l : List (String × α)} {k : String} {v : α}
    (hnd : (l.map Prod.fst).Nodup) (hmem : (k, v) ∈ l) : lookupKey l k = some v := by
  induction l with
  | nil => cases hmem
  | cons a as ih =>
    rw [List.map_cons, List.nodup_cons] at hnd
    rcases List.mem_cons.mp hmem with h | h
    · subst h
      simp [lookupKey, List.find?]
    · have hne : (a.1 == k) = false := by
        have : k ∈ as.map Prod.fst := List.mem_map_of_mem Prod.fst h
        have : a.1 ≠ k := fun he => hnd.1 (he ▸ this)
        simpa using this
      simpa [lookupKey, List.find?_cons, hne] using ih hnd.2 h

theorem sameKeySet_refl (l : List (String × JVal)) : sameKeySet l l = true := by
  simp only [sameKeySet, Bool.and_eq_true, List.all_eq_true]
  constructor <;> intro p hp <;> exact List.any_eq_true.mpr ⟨p, hp, by simp⟩

theorem compare_entries_of_forall (da de : List (String × JVal)) (t : ℚ)
    (h : ∀ p ∈ de, ∃ va, lookupKey da p.1 = some va ∧ compare_results va p.2 t = true) :
    compare_entries da de t = true := by
  induction de with
  | nil => simp [compare_entries]
  | cons a rest ih =>
    obtain ⟨va, hva, hcmp⟩ := h a (List.mem_cons_self a rest)
    rw [compare_entries]
    have hrest := ih (fun p hp => h p (List.mem_cons_of_mem a hp))
    obtain ⟨k, ve⟩ := a
    simp only at hva
    simp [hva, hcmp, hrest]

/-- C7: a null expected value matches only a null actual value: comparing
null with null succeeds and comparing a present numeric 0 with null fails,
for every tolerance. -/
theorem c7_null_propagation (t : ℚ) (ht : 0 ≤ t) :
    compare_results JVal.null JVal.null t = true ∧
    compare_results (JVal.num 0) JVal.null t = false := by
  constructor <;> simp [compare_results, toNum, scalarEq]

/-- Witness for C7 at tolerance 1/100. -/
theorem c7_null_propagation_witness :
    (0 : ℚ) ≤ 1 / 100 ∧
    compare_results JVal.null JVal.null (1 / 100) = true ∧
    compare_results (JVal.num 0) JVal.null (1 / 100) = false :=
  ⟨by norm_num, (c7_null_propagation (1 / 100) (by norm_num)).1,
    (c7_null_propagation (1 / 100) (by norm_num)).2⟩

/-- C8: the tolerant comparator is reflexive on well-formed nested values for
every nonnegative tolerance. -/
theorem c8_compare_refl (x : JVal) (hx : WF x) (t : ℚ) (ht : 0 ≤ t) :
    compare_results x x t = true := by
  induction hx with
  | null => simp [compare_results, toNum, scalarEq]
  | num q => simp [compare_results, toNum, ht]
  | boolean b => simp [compare_results, toNum, ht]
  | str s => simp [compare_results, toNum, scalarEq]
  | dict l hkeys hvals ih =>
    rw [compare_results, Bool.and_eq_true]
    refine ⟨sameKeySet_refl l, ?_⟩
    refine compare_entries_of_forall l l t (fun p hp => ⟨p.2, ?_, ih p hp⟩)
    exact lookupKey_self_of_nodup hkeys hp

/-- Witness for C8 at a two-level nested mapping and tolerance 1/100. -/
theorem c8_compare_refl_witness :
    WF nestedExampleVal ∧
    compare_results nestedExampleVal nestedExampleVal (1 / 100) = true := by
  have hwf : WF nestedExampleVal := by
    refine WF.dict _ (by decide) ?_
    intro p hp
    rcases List.mem_cons.mp hp with h | hp
    · rw [h]
      exact WF.num 1
    rcases List.mem_cons.mp hp with h | hp
    · rw [h]
      refine WF.dict _ (by decide) ?_
      intro q hq
      rcases List.mem_cons.mp hq with h2 | hq
      · rw [h2]
        exact WF.str "x"
      rcases List.mem_cons.mp hq with h2 | hq
      · rw [h2]
        exact WF.null
      · cases hq
    rcases List.mem_cons.mp hp with h | hp
    · rw [h]
      exact WF.boolean true
    · cases hp
  exact ⟨hwf, c8_compare_refl nestedExampleVal hwf (1 / 100) (by norm_num)⟩

/-- C10: Python booleans pass the comparator's numeric-type test, so
comparing `True` with 1 and `False` with 0 succeeds for every nonnegative
tolerance (matched by absolute difference, not exact equality). -/
theorem c10_boolean_numeric (t : ℚ) (ht : 0 ≤ t) :
    compare_results (JVal.boolean true) (JVal.num 1) t = true ∧
    compare_results (JVal.boolean false) (JVal.num 0) t = true := by
  constructor <;> simp [compare_results, toNum, ht]

/-- Witness for C10 at tolerance 1/100. -/
theorem c10_boolean_numeric_witness :
    (0 : ℚ) ≤ 1 / 100 ∧
    compare_results (JVal.boolean true) (JVal.num 1) (1 / 100) = true ∧
    compare_results (JVal.boolean false) (JVal.num 0) (1 / 100) = true :=
  ⟨by norm_num, (c10_boolean_numeric (1 / 100) (by norm_num)).1,
    (c10_boolean_numeric (1 / 100) (by norm_num)).2⟩

/-- C4: the claim says custom-metric cases are graded with the generic
epsilon; the source grades them with 0.1, which equals the time-comparison
epsilon and differs from the generic 0.01 — an actual of 1/20 against an
expected of 0 passes the custom-metric grading but not the generic one. -/
theorem c4_tolerance_counterexample :
    customMetricsCaseTolerance ≠ aggregationCaseTolerance ∧
    customMetricsCaseTolerance = timeComparisonCaseTolerance ∧
    gradeCustomMetricsCase (JVal.num (1 / 20)) (JVal.num 0) = true ∧
    gradeAggregationCase (JVal.num (1 / 20)) (JVal.num 0) = false := by
  refine ⟨?_, rfl, ?_, ?_⟩
  · norm_num [customMetricsCaseTolerance, aggregationCaseTolerance, defaultTolerance]
  · rw [gradeCustomMetricsCase, customMetricsCaseTolerance]
    simp only [compare_results, toNum]
    norm_num [abs_of_nonneg]
  · rw [gradeAggregationCase, aggregationCaseTolerance, defaultTolerance]
    simp only [compare_results, toNum]
    norm_num [abs_of_nonneg]

/-- C4 (amended): the generic epsilon 0.01 is used for aggregation cases
only; both time-comparison and custom-metric cases are graded with the
strictly larger epsilon 0.1. -/
theorem c4_tolerances :
    aggregationCaseTolerance = 1 / 100 ∧
    timeComparisonCaseTolerance = 1 / 10 ∧
    customMetricsCaseTolerance = 1 / 10 ∧
    aggregationCaseTolerance < customMetricsCaseTolerance ∧
    (∀ a e, gradeCustomMetricsCase a e = gradeTimeComparisonCase a e) := by
  refine ⟨rfl, rfl, rfl, ?_, fun a e => rfl⟩
  norm_num [aggregationCaseTolerance, defaultTolerance, customMetricsCaseTolerance]

/-- C9: in each of the three grouped operations every result key stems from a
row whose group value is present, and a row whose group value is missing
belongs to no partition. -/
theorem c9_missing_group_excluded (t : Table) (g m : String) (fn : AggFn) (split : Int)
    (mn : MetricName) (res : List (String × Option ℚ)) :
    (∀ k, k ∈ (aggregate t g m fn).map Prod.fst → ∃ r ∈ t.rows, getCat r g = some k) ∧
    (∀ k, k ∈ (compareWindowsGrouped t m g split).map Prod.fst →
      ∃ r ∈ t.rows, getCat r g = some k) ∧
    (groupedCustomMetricCase t mn g = some res →
      ∀ k, k ∈ res.map Prod.fst → ∃ r ∈ t.rows, getCat r g = some k) ∧
    (∀ (rows : List Row) (r : Row), getCat r g = none → ∀ k, r ∉ partitionRows rows g k) := by
  refine ⟨?_, ?_, ?_, ?_⟩
  · intro k hk
    rw [aggregate_keys] at hk
    exact mem_groupKeys.mp hk
  · intro k hk
    rw [compareWindowsGrouped_keys, List.mem_dedup, List.mem_append] at hk
    rcases hk with hk | hk
    · obtain ⟨r, hr, hcat⟩ := mem_groupKeys.mp hk
      exact ⟨r, List.mem_of_mem_filter hr, hcat⟩
    · obtain ⟨r, hr, hcat⟩ := mem_groupKeys.mp hk
      exact ⟨r, List.mem_of_mem_filter hr, hcat⟩
  · intro hres k hk
    rw [groupedCustomMetricCase] at hres
    by_cases h1 : ((requiredColumns mn).all (fun c => t.columns.contains c)) = true
    · rw [if_pos h1] at hres
      by_cases h2 : ((cleanRows mn t.rows).isEmpty) = true
      · rw [if_pos h2] at hres
        exact absurd hres (by simp)
      · rw [if_neg h2] at hres
        have hres2 := Option.some_inj.mp hres
        subst hres2
        have hkeys :
            ((groupKeys (cleanRows mn t.rows) g).map (fun k =>
              (k, some (round2 (meanQ ((partitionRows (cleanRows mn t.rows) g k).map
                (rowMetric mn))))))).map Prod.fst = groupKeys (cleanRows mn t.rows) g := by
          simp only [List.map_map]
          exact List.map_id _
        rw [hkeys] at hk
        obtain ⟨r, hr, hcat⟩ := mem_groupKeys.mp hk
        refine ⟨r, ?_, hcat⟩
        rw [cleanRows] at hr
        exact List.mem_of_mem_filter (List.mem_of_mem_filter hr)
    · rw [if_neg h1] at hres
      exact absurd hres (by simp)
  · intro rows r hnone k hmem
    rw [partitionRows, List.mem_filter] at hmem
    have h2 := hmem.2
    rw [hnone] at h2
    simp at h2

/-- Witness for C9: in `missingGroupTable` the key `A` stems from a row with
a present group value, and the row with the missing group value lies in no
partition. -/
theorem c9_missing_group_excluded_witness :
    (∃ r ∈ missingGroupTable.rows, getCat r "G" = some "A") ∧
    missingGroupRow ∉ partitionRows missingGroupTable.rows "G" "A" := by
  have h := c9_missing_group_excluded missingGroupTable "G" "M" AggFn.count 0 MetricName.roi []
  exact ⟨h.1 "A" (by decide),
    h.2.2.2 missingGroupTable.rows missingGroupRow (by decide) "A"⟩
